import Mathlib

/-!
A verification development for the condition-building core of the `dbr`
SQL query-construction library (`condition.go`).

The Go source is shallowly embedded: runtime `interface{}` values become the
inductive `GoValue` (whose constructors track the `reflect.Kind` dispatch the
source performs), the `Buffer` and `Dialect` collaborators are modelled from
the specification (they live outside the translated file), and the family of
`Builder` factories (`And`, `Or`, `Eq`, `Neq`, `Gt`, `Gte`, `Lt`, `Lte`,
`Like`, `NotLike`) becomes a closed tree `Builder` whose rendering function
`build` mirrors the source line by line.
-/

namespace dbr

/-- Element kinds for the generic slice constructor of `GoValue`: slices whose
element kind is neither `uint8` nor `int32` (those two get their own dedicated
constructors `GoValue.bytes` and `GoValue.runes`, mirroring the two slice cases
`buildLikeCmp` singles out). -/
inductive ElemKind where
  | intk
  | boolk
  | stringk
  | structk
  | slicek
  | ptrk
  deriving DecidableEq, Repr

/-- A Go `interface{}` value, as far as the dispatch in `condition.go` can
observe it through `== nil` and `reflect`:

* `nil` — the nil interface (`value == nil` in Go);
* `str` — a value of kind `reflect.String`;
* `int` — a numeric value (kind `reflect.Int`);
* `boolv` — a boolean;
* `structv` — a struct value;
* `ptr` — a pointer (`reflect.Ptr`); `ptr none` is a nil pointer boxed in a
  non-nil interface, `ptr (some v)` points at `v` (a pointer to an interface
  holding nil is `ptr (some GoValue.nil)`);
* `bytes` — a `[]uint8` (byte slice), elements as numbers below 256;
* `runes` — a `[]int32` (rune slice); runes are modelled as `Char`, i.e. as
  valid Unicode scalar values, so Go's `string([]rune)` conversion is
  `String.mk`;
* `slice` — a slice of any other element kind, with its elements. -/
inductive GoValue where
  | nil
  | str (s : String)
  | int (n : Int)
  | boolv (b : Bool)
  | structv (name : String)
  | ptr (inner : Option GoValue)
  | bytes (bs : List (Fin 256))
  | runes (rs : List Char)
  | slice (elemKind : ElemKind) (elems : List GoValue)

/-- `reflect.ValueOf(value).Kind() == reflect.Slice`: true exactly for the
three slice-shaped constructors. -/
def GoValue.isSlice : GoValue → Bool
  | .bytes _ => true
  | .runes _ => true
  | .slice _ _ => true
  | _ => false

/-- `reflect.ValueOf(value).Len()` for slice-shaped values (unused on other
shapes; `0` there). -/
def GoValue.sliceLen : GoValue → Nat
  | .bytes bs => bs.length
  | .runes rs => rs.length
  | .slice _ es => es.length
  | _ => 0

/-- Errors a render can return.  `columnNotSpecified` is the source's
`ErrColumnNotSpecified`; `other` stands for the error of an arbitrary foreign
`Builder` (the `Builder` interface is open in Go, so a child of `And`/`Or` may
fail with any error value). -/
inductive Err where
  | columnNotSpecified
  | other (code : Nat)
  deriving DecidableEq, Repr

/-- Modelled from the spec: a `Dialect` exposes identifier quoting and boolean
literal encoding (its definition is outside the translated file; the spec
describes it as a stateless capability with `QuoteIdent` and `EncodeBool`). -/
structure Dialect where
  QuoteIdent : String → String
  EncodeBool : Bool → String

/-- Modelled from the spec: the package-level placeholder token that
`buildCmp` writes into the SQL text where a bound value will later be
substituted (the constant lives outside the translated file; `?` is the
token the spec's examples use). -/
def placeholder : String := "?"

/-- Modelled from the spec: a `Buffer` owns two parallel growing sequences —
the rendered SQL text and the ordered list of bound values. -/
structure Buffer where
  text : String
  values : List GoValue

/-- `buf.WriteString(s)`: append `s` to the rendered text. -/
def Buffer.writeString (b : Buffer) (s : String) : Buffer :=
  { b with text := b.text ++ s }

/-- `buf.WriteValue(v)`: append `v` to the bound-value sequence. -/
def Buffer.writeValue (b : Buffer) (v : GoValue) : Buffer :=
  { b with values := b.values ++ [v] }

/-- A fresh, empty `Buffer`. -/
def emptyBuffer : Buffer := ⟨"", []⟩

/-- Outcome of one render pass: success, an ordinary returned error, or a Go
panic (reachable: `reflect.Value.Interface` panics on the zero `Value` that
`Elem()` returns for a nil pointer).  Each outcome carries the state the
`Buffer` was left in. -/
inductive BuildResult where
  | ok (buf : Buffer)
  | error (e : Err) (buf : Buffer)
  | panic (buf : Buffer)

/-- The closed tree of `Builder` values constructible from this file's factory
functions, plus `raw`, which stands in for an arbitrary foreign `BuildFunc`
(the Go `Builder` interface is open): `raw t vs e` appends the text `t` and
the values `vs` to the buffer and then returns the error `e` if present. -/
inductive Builder where
  | and (cond : List Builder)
  | or (cond : List Builder)
  | eq (column : String) (value : GoValue)
  | neq (column : String) (value : GoValue)
  | gt (column : String) (value : GoValue)
  | gte (column : String) (value : GoValue)
  | lt (column : String) (value : GoValue)
  | lte (column : String) (value : GoValue)
  | like (column : String) (value : GoValue)
  | notLike (column : String) (value : GoValue)
  | raw (text : String) (vals : List GoValue) (err : Option Err)

/-- `buildCmp(d, buf, pred, column, value)`: write the quoted column, the
predicate and the placeholder separated by spaces, then bind `value`. -/
def buildCmp (d : Dialect) (buf : Buffer) (pred column : String)
    (value : GoValue) : BuildResult :=
  .ok (((((buf.writeString (d.QuoteIdent column)).writeString " "
      ).writeString pred).writeString " ").writeString placeholder
      |>.writeValue value)

/-- `Eq(column, value)`'s render body: `IS NULL` for nil, the false literal
for an empty slice, `IN` for a non-empty slice, `=` otherwise. -/
def eqCase (d : Dialect) (buf : Buffer) (column : String)
    (value : GoValue) : BuildResult :=
  match value with
  | .nil => .ok ((buf.writeString (d.QuoteIdent column)).writeString " IS NULL")
  | v =>
      if v.isSlice then
        if v.sliceLen = 0 then .ok (buf.writeString (d.EncodeBool false))
        else buildCmp d buf "IN" column v
      else buildCmp d buf "=" column v

/-- `Neq(column, value)`'s render body: `IS NOT NULL` for nil, the true
literal for an empty slice, `NOT IN` for a non-empty slice, `!=` otherwise. -/
def neqCase (d : Dialect) (buf : Buffer) (column : String)
    (value : GoValue) : BuildResult :=
  match value with
  | .nil =>
      .ok ((buf.writeString (d.QuoteIdent column)).writeString " IS NOT NULL")
  | v =>
      if v.isSlice then
        if v.sliceLen = 0 then .ok (buf.writeString (d.EncodeBool true))
        else buildCmp d buf "NOT IN" column v
      else buildCmp d buf "!=" column v

/-- `buildLikeCmp(d, buf, pred, column, value)`: the recursive value dispatch
of `Like`/`NotLike`.  Strings pass as is; pointers are dereferenced and the
dispatch re-applied (`v.Elem().Interface()` panics in Go when the pointer is
nil, because `Elem()` yields the zero `reflect.Value`); `[]uint8` is bound
unmodified; `[]int32` is converted to a string; every other shape — nil, any
other slice element kind, or any other scalar — returns
`ErrColumnNotSpecified`. -/
def buildLikeCmp (d : Dialect) (buf : Buffer) (pred column : String) :
    GoValue → BuildResult
  | .nil => .error .columnNotSpecified buf
  | .str s => buildCmp d buf pred column (.str s)
  | .ptr (some inner) => buildLikeCmp d buf pred column inner
  | .ptr none => .panic buf
  | .bytes bs => buildCmp d buf pred column (.bytes bs)
  | .runes rs => buildCmp d buf pred column (.str (String.mk rs))
  | .slice _ _ => .error .columnNotSpecified buf
  | .int _ => .error .columnNotSpecified buf
  | .boolv _ => .error .columnNotSpecified buf
  | .structv _ => .error .columnNotSpecified buf

mutual

/-- Render a `Builder` tree: the dispatch of the factory functions' closures. -/
def build (d : Dialect) (buf : Buffer) : Builder → BuildResult
  | .and cs => buildCondFirst d buf "AND" cs
  | .or cs => buildCondFirst d buf "OR" cs
  | .eq c v => eqCase d buf c v
  | .neq c v => neqCase d buf c v
  | .gt c v => buildCmp d buf ">" c v
  | .gte c v => buildCmp d buf ">=" c v
  | .lt c v => buildCmp d buf "<" c v
  | .lte c v => buildCmp d buf "<=" c v
  | .like c v => buildLikeCmp d buf "LIKE" c v
  | .notLike c v => buildLikeCmp d buf "NOT LIKE" c v
  | .raw t vs e =>
      let b := vs.foldl Buffer.writeValue (buf.writeString t)
      match e with
      | none => .ok b
      | some err => .error err b

/-- `buildCond(d, buf, pred, cond...)` at loop index `i = 0`: no separator is
written before the first child. -/
def buildCondFirst (d : Dialect) (buf : Buffer) (pred : String) :
    List Builder → BuildResult
  | [] => .ok buf
  | c :: rest =>
      match build d (buf.writeString "(") c with
      | .ok b => buildCondRest d (b.writeString ")") pred rest
      | r => r

/-- `buildCond`'s loop at indices `i > 0`: a `" <pred> "` separator precedes
each remaining child. -/
def buildCondRest (d : Dialect) (buf : Buffer) (pred : String) :
    List Builder → BuildResult
  | [] => .ok buf
  | c :: rest =>
      let b0 := ((buf.writeString " ").writeString pred).writeString " "
      match build d (b0.writeString "(") c with
      | .ok b => buildCondRest d (b.writeString ")") pred rest
      | r => r

end

/-- `And(cond...)` returns a `Builder` joining the children with `AND`. -/
def And (cond : List Builder) : Builder := .and cond

/-- `Or(cond...)` returns a `Builder` joining the children with `OR`. -/
def Or (cond : List Builder) : Builder := .or cond

/-- `Eq(column, value)`. -/
def Eq (column : String) (value : GoValue) : Builder := .eq column value

/-- `Neq(column, value)`. -/
def Neq (column : String) (value : GoValue) : Builder := .neq column value

/-- `Gt(column, value)`. -/
def Gt (column : String) (value : GoValue) : Builder := .gt column value

/-- `Gte(column, value)`. -/
def Gte (column : String) (value : GoValue) : Builder := .gte column value

/-- `Lt(column, value)`. -/
def Lt (column : String) (value : GoValue) : Builder := .lt column value

/-- `Lte(column, value)`. -/
def Lte (column : String) (value : GoValue) : Builder := .lte column value

/-- `Like(column, value)`. -/
def Like (column : String) (value : GoValue) : Builder := .like column value

/-- `NotLike(column, value)`. -/
def NotLike (column : String) (value : GoValue) : Builder := .notLike column value

/-- Concatenation of two buffers: text appended to text, values to values.
`a.append b` is the buffer obtained by replaying onto `a` all the writes that
produced `b` from the empty buffer. -/
def Buffer.append (a b : Buffer) : Buffer :=
  ⟨a.text ++ b.text, a.values ++ b.values⟩

/-- Prefix every buffer inside a `BuildResult` with `a`, keeping the outcome
(ok / error / panic) and the error value intact. -/
def BuildResult.prepend (a : Buffer) : BuildResult → BuildResult
  | .ok b => .ok (a.append b)
  | .error e b => .error e (a.append b)
  | .panic b => .panic (a.append b)

/-- The text the spec expects after the first child of a conjunction: every
further child's text is wrapped in parentheses and preceded by a
`" <pred> "` separator. -/
def condTextRest (pred : String) : List String → String
  | [] => ""
  | t :: rest => " " ++ pred ++ " " ++ "(" ++ t ++ ")" ++ condTextRest pred rest

/-- The text the spec expects of a conjunction render: each child's text
wrapped in parentheses, with the `" <pred> "` separator between consecutive
children only — none before the first or after the last; zero children give
empty text. -/
def condText (pred : String) : List String → String
  | [] => ""
  | t :: rest => "(" ++ t ++ ")" ++ condTextRest pred rest

/-- The text the spec expects a conjunction to have written when the child
after the `ts`-rendered prefix fails having itself written `tc`: the prefix,
a separator only if some child preceded, the opening parenthesis, and the
failing child's partial text — with no closing parenthesis and nothing for
later siblings. -/
def condErrText (pred : String) (ts : List String) (tc : String) : String :=
  condText pred ts ++
    (match ts with
     | [] => ""
     | _ :: _ => " " ++ pred ++ " ") ++ "(" ++ tc

/-- The number of placeholder tokens occurring in a string (the placeholder
is the single character `?`). -/
def countQ (s : String) : Nat := s.data.countP (fun ch => ch == '?')

mutual

/-- The builder trees C8 ranges over: built only from the ten factory
functions (`raw`, the stand-in for a foreign builder, is excluded), with
every column name quoting to text free of the placeholder character under
the given dialect, so that placeholders in the text come only from
`buildCmp`. -/
def cleanTree (d : Dialect) : Builder → Bool
  | .and cs => cleanList d cs
  | .or cs => cleanList d cs
  | .eq c _ => countQ (d.QuoteIdent c) == 0
  | .neq c _ => countQ (d.QuoteIdent c) == 0
  | .gt c _ => countQ (d.QuoteIdent c) == 0
  | .gte c _ => countQ (d.QuoteIdent c) == 0
  | .lt c _ => countQ (d.QuoteIdent c) == 0
  | .lte c _ => countQ (d.QuoteIdent c) == 0
  | .like c _ => countQ (d.QuoteIdent c) == 0
  | .notLike c _ => countQ (d.QuoteIdent c) == 0
  | .raw _ _ _ => false

/-- `cleanTree` on each member of a list of children. -/
def cleanList (d : Dialect) : List Builder → Bool
  | [] => true
  | c :: rest => cleanTree d c && cleanList d rest

end

/-- A representative concrete dialect for concrete evaluations: quotes
identifiers with double quotes and uses `TRUE`/`FALSE` literals. -/
def mockDialect : Dialect :=
  ⟨fun s => "\"" ++ s ++ "\"", fun b => if b then "TRUE" else "FALSE"⟩

example :
    build mockDialect emptyBuffer (Eq "a" (.int 1)) =
      .ok ⟨"\"a\" = ?", [.int 1]⟩ := rfl

example :
    build mockDialect emptyBuffer (And [Eq "a" (.int 1), Eq "b" (.int 2)]) =
      .ok ⟨"(\"a\" = ?) AND (\"b\" = ?)", [.int 1, .int 2]⟩ := rfl

example :
    build mockDialect emptyBuffer (Like "name" (.str "foo")) =
      .ok ⟨"\"name\" LIKE ?", [.str "foo"]⟩ := rfl

example :
    build mockDialect emptyBuffer (Like "name" (.int 42)) =
      .error .columnNotSpecified emptyBuffer := rfl

example :
    build mockDialect emptyBuffer (Like "c" (.ptr none)) =
      .panic emptyBuffer := rfl

example :
    build mockDialect emptyBuffer (Eq "a" (.slice .intk [])) =
      .ok ⟨"FALSE", []⟩ := rfl

example : build mockDialect emptyBuffer (Or []) = .ok ⟨"", []⟩ := rfl

/-! ### Buffer algebra -/

theorem writeString_append (a b : Buffer) (s : String) :
    (a.append b).writeString s = a.append (b.writeString s) := by
  simp [Buffer.append, Buffer.writeString, String.append_assoc]

theorem writeValue_append (a b : Buffer) (v : GoValue) :
    (a.append b).writeValue v = a.append (b.writeValue v) := by
  simp [Buffer.append, Buffer.writeValue]

theorem append_emptyBuffer (a : Buffer) : a.append emptyBuffer = a := by
  simp [Buffer.append, emptyBuffer]

theorem emptyBuffer_append (b : Buffer) : emptyBuffer.append b = b := by
  simp [Buffer.append, emptyBuffer]

theorem buffer_append_assoc (a b c : Buffer) :
    (a.append b).append c = a.append (b.append c) := by
  simp [Buffer.append, String.append_assoc]

theorem writeString_as_append (buf : Buffer) (s : String) :
    buf.writeString s = buf.append ⟨s, []⟩ := by
  simp [Buffer.writeString, Buffer.append]

theorem prepend_emptyBuffer (r : BuildResult) :
    r.prepend emptyBuffer = r := by
  cases r <;> simp [BuildResult.prepend, emptyBuffer_append]

theorem prepend_prepend (a b : Buffer) (r : BuildResult) :
    (r.prepend b).prepend a = r.prepend (a.append b) := by
  cases r <;> simp [BuildResult.prepend, buffer_append_assoc]

theorem foldl_writeValue : ∀ (vs : List GoValue) (b : Buffer),
    vs.foldl Buffer.writeValue b = ⟨b.text, b.values ++ vs⟩
  | [], b => by simp
  | v :: vs, b => by
      simp [List.foldl_cons, foldl_writeValue vs, Buffer.writeValue,
        List.append_assoc]

/-! ### The frame property: every render only appends

`build d buf t` equals the render of `t` into a fresh buffer, prefixed by
`buf`.  This is the formal content of "side effects are strictly limited to
appends on the supplied Buffer; no hidden state". -/

theorem buildCmp_frame (d : Dialect) (buf : Buffer) (pred column : String)
    (v : GoValue) :
    buildCmp d buf pred column v =
      (buildCmp d emptyBuffer pred column v).prepend buf := by
  simp [buildCmp, Buffer.writeString, Buffer.writeValue, BuildResult.prepend,
    Buffer.append, emptyBuffer, String.append_assoc]

theorem eqCase_frame (d : Dialect) (buf : Buffer) (column : String)
    (v : GoValue) :
    eqCase d buf column v = (eqCase d emptyBuffer column v).prepend buf := by
  have S : ∀ pred val, buildCmp d buf pred column val =
      (buildCmp d emptyBuffer pred column val).prepend buf :=
    fun _ _ => buildCmp_frame ..
  cases v with
  | nil =>
      simp [eqCase, BuildResult.prepend, Buffer.writeString, Buffer.append,
        emptyBuffer, String.append_assoc]
  | bytes bs =>
      by_cases h : bs.length = 0 <;>
        simp [eqCase, GoValue.isSlice, GoValue.sliceLen, h, S,
          Buffer.writeString, BuildResult.prepend, Buffer.append, emptyBuffer]
  | runes rs =>
      by_cases h : rs.length = 0 <;>
        simp [eqCase, GoValue.isSlice, GoValue.sliceLen, h, S,
          Buffer.writeString, BuildResult.prepend, Buffer.append, emptyBuffer]
  | slice k es =>
      by_cases h : es.length = 0 <;>
        simp [eqCase, GoValue.isSlice, GoValue.sliceLen, h, S,
          Buffer.writeString, BuildResult.prepend, Buffer.append, emptyBuffer]
  | str s => simp [eqCase, GoValue.isSlice, S]
  | int n => simp [eqCase, GoValue.isSlice, S]
  | boolv b => simp [eqCase, GoValue.isSlice, S]
  | structv s => simp [eqCase, GoValue.isSlice, S]
  | ptr o => simp [eqCase, GoValue.isSlice, S]

theorem neqCase_frame (d : Dialect) (buf : Buffer) (column : String)
    (v : GoValue) :
    neqCase d buf column v = (neqCase d emptyBuffer column v).prepend buf := by
  have S : ∀ pred val, buildCmp d buf pred column val =
      (buildCmp d emptyBuffer pred column val).prepend buf :=
    fun _ _ => buildCmp_frame ..
  cases v with
  | nil =>
      simp [neqCase, BuildResult.prepend, Buffer.writeString, Buffer.append,
        emptyBuffer, String.append_assoc]
  | bytes bs =>
      by_cases h : bs.length = 0 <;>
        simp [neqCase, GoValue.isSlice, GoValue.sliceLen, h, S,
          Buffer.writeString, BuildResult.prepend, Buffer.append, emptyBuffer]
  | runes rs =>
      by_cases h : rs.length = 0 <;>
        simp [neqCase, GoValue.isSlice, GoValue.sliceLen, h, S,
          Buffer.writeString, BuildResult.prepend, Buffer.append, emptyBuffer]
  | slice k es =>
      by_cases h : es.length = 0 <;>
        simp [neqCase, GoValue.isSlice, GoValue.sliceLen, h, S,
          Buffer.writeString, BuildResult.prepend, Buffer.append, emptyBuffer]
  | str s => simp [neqCase, GoValue.isSlice, S]
  | int n => simp [neqCase, GoValue.isSlice, S]
  | boolv b => simp [neqCase, GoValue.isSlice, S]
  | structv s => simp [neqCase, GoValue.isSlice, S]
  | ptr o => simp [neqCase, GoValue.isSlice, S]

theorem buildLikeCmp_frame (d : Dialect) (pred column : String) :
    ∀ (v : GoValue) (buf : Buffer),
      buildLikeCmp d buf pred column v =
        (buildLikeCmp d emptyBuffer pred column v).prepend buf
  | .nil, buf => by
      simp [buildLikeCmp, BuildResult.prepend, append_emptyBuffer]
  | .str s, buf => by
      simp only [buildLikeCmp]; exact buildCmp_frame ..
  | .ptr (some inner), buf => by
      simp only [buildLikeCmp]; exact buildLikeCmp_frame d pred column inner buf
  | .ptr none, buf => by
      simp [buildLikeCmp, BuildResult.prepend, append_emptyBuffer]
  | .bytes bs, buf => by
      simp only [buildLikeCmp]; exact buildCmp_frame ..
  | .runes rs, buf => by
      simp only [buildLikeCmp]; exact buildCmp_frame ..
  | .slice k es, buf => by
      simp [buildLikeCmp, BuildResult.prepend, append_emptyBuffer]
  | .int n, buf => by
      simp [buildLikeCmp, BuildResult.prepend, append_emptyBuffer]
  | .boolv b, buf => by
      simp [buildLikeCmp, BuildResult.prepend, append_emptyBuffer]
  | .structv s, buf => by
      simp [buildLikeCmp, BuildResult.prepend, append_emptyBuffer]

theorem condFirst_cons (d : Dialect) (pred : String) (c : Builder)
    (rest : List Builder) (buf : Buffer) :
    buildCondFirst d buf pred (c :: rest) =
      match build d (buf.writeString "(") c with
      | .ok b => buildCondRest d (b.writeString ")") pred rest
      | r => r := rfl

theorem condRest_cons (d : Dialect) (pred : String) (c : Builder)
    (rest : List Builder) (buf : Buffer) :
    buildCondRest d buf pred (c :: rest) =
      match build d ((((buf.writeString " ").writeString pred).writeString
          " ").writeString "(") c with
      | .ok b => buildCondRest d (b.writeString ")") pred rest
      | r => r := rfl

theorem buildCondRest_frame (d : Dialect) (pred : String) :
    ∀ (cs : List Builder),
      (∀ c ∈ cs, ∀ buf, build d buf c = (build d emptyBuffer c).prepend buf) →
      ∀ buf, buildCondRest d buf pred cs =
        (buildCondRest d emptyBuffer pred cs).prepend buf
  | [], _, buf => by
      simp [buildCondRest, BuildResult.prepend, append_emptyBuffer]
  | c :: rest, hf, buf => by
      have hc := hf c (List.mem_cons_self c rest)
      have hrest := buildCondRest_frame d pred rest
        (fun x hx => hf x (List.mem_cons_of_mem _ hx))
      rw [condRest_cons, condRest_cons,
        hc ((((buf.writeString " ").writeString pred).writeString
          " ").writeString "("),
        hc ((((emptyBuffer.writeString " ").writeString pred).writeString
          " ").writeString "(")]
      cases build d emptyBuffer c with
      | ok b =>
          simp only [BuildResult.prepend]
          refine (hrest _).trans ?_
          refine Eq.trans ?_ (congrArg (BuildResult.prepend buf) (hrest _).symm)
          rw [prepend_prepend]
          congr 1
          simp [Buffer.append, Buffer.writeString, emptyBuffer,
            String.append_assoc]
      | error e b =>
          simp [BuildResult.prepend, Buffer.append, Buffer.writeString,
            emptyBuffer, String.append_assoc]
      | panic b =>
          simp [BuildResult.prepend, Buffer.append, Buffer.writeString,
            emptyBuffer, String.append_assoc]

theorem buildCondFirst_frame (d : Dialect) (pred : String)
    (cs : List Builder)
    (hf : ∀ c ∈ cs, ∀ buf, build d buf c = (build d emptyBuffer c).prepend buf)
    (buf : Buffer) :
    buildCondFirst d buf pred cs =
      (buildCondFirst d emptyBuffer pred cs).prepend buf := by
  cases cs with
  | nil => simp [buildCondFirst, BuildResult.prepend, append_emptyBuffer]
  | cons c rest =>
      have hc := hf c (List.mem_cons_self c rest)
      have hrest := buildCondRest_frame d pred rest
        (fun x hx => hf x (List.mem_cons_of_mem _ hx))
      rw [condFirst_cons, condFirst_cons, hc (buf.writeString "("),
        hc (emptyBuffer.writeString "(")]
      cases build d emptyBuffer c with
      | ok b =>
          simp only [BuildResult.prepend]
          refine (hrest _).trans ?_
          refine Eq.trans ?_ (congrArg (BuildResult.prepend buf) (hrest _).symm)
          rw [prepend_prepend]
          congr 1
          simp [Buffer.append, Buffer.writeString, emptyBuffer,
            String.append_assoc]
      | error e b =>
          simp [BuildResult.prepend, Buffer.append, Buffer.writeString,
            emptyBuffer, String.append_assoc]
      | panic b =>
          simp [BuildResult.prepend, Buffer.append, Buffer.writeString,
            emptyBuffer, String.append_assoc]

theorem raw_build (d : Dialect) (buf : Buffer) (t : String)
    (vs : List GoValue) (e : Option Err) :
    build d buf (.raw t vs e) =
      match e with
      | none => .ok ⟨buf.text ++ t, buf.values ++ vs⟩
      | some err => .error err ⟨buf.text ++ t, buf.values ++ vs⟩ := by
  cases e <;> simp [build, foldl_writeValue, Buffer.writeString]

theorem build_frame (d : Dialect) :
    ∀ (t : Builder) (buf : Buffer),
      build d buf t = (build d emptyBuffer t).prepend buf
  | .and cs, buf =>
      buildCondFirst_frame d "AND" cs (fun c _ buf' => build_frame d c buf') buf
  | .or cs, buf =>
      buildCondFirst_frame d "OR" cs (fun c _ buf' => build_frame d c buf') buf
  | .eq c v, buf => eqCase_frame d buf c v
  | .neq c v, buf => neqCase_frame d buf c v
  | .gt c v, buf => buildCmp_frame d buf ">" c v
  | .gte c v, buf => buildCmp_frame d buf ">=" c v
  | .lt c v, buf => buildCmp_frame d buf "<" c v
  | .lte c v, buf => buildCmp_frame d buf "<=" c v
  | .like c v, buf => buildLikeCmp_frame d "LIKE" c v buf
  | .notLike c v, buf => buildLikeCmp_frame d "NOT LIKE" c v buf
  | .raw t vs e, buf => by
      rw [raw_build, raw_build]
      cases e <;>
        simp [BuildResult.prepend, Buffer.append, emptyBuffer]
termination_by t => sizeOf t
decreasing_by
  all_goals
    simp only [Builder.and.sizeOf_spec, Builder.or.sizeOf_spec]
  all_goals
    have := List.sizeOf_lt_of_mem (by assumption : c ∈ cs)
  all_goals omega

/-! ### Characterizations of the leaf renders -/

theorem buildCmp_eq (d : Dialect) (buf : Buffer) (pred column : String)
    (v : GoValue) :
    buildCmp d buf pred column v =
      .ok ⟨buf.text ++ d.QuoteIdent column ++ " " ++ pred ++ " " ++ placeholder,
        buf.values ++ [v]⟩ := by
  simp [buildCmp, Buffer.writeString, Buffer.writeValue, String.append_assoc]

/-! ### C1 -/

/-- C1: `Eq(c, v)` renders by the exhaustive case split on `v` and always
returns ok: nil renders `<quoted c> IS NULL` binding nothing; an empty slice
renders only the dialect's false literal binding nothing; a non-empty slice
renders `<quoted c> IN <placeholder>` binding the whole slice as one value;
any other value renders `<quoted c> = <placeholder>` binding `v`. -/
theorem eq_case_split (c : String) (v : GoValue) (d : Dialect) (buf : Buffer) :
    (v = .nil →
      build d buf (Eq c v) =
        .ok ⟨buf.text ++ d.QuoteIdent c ++ " IS NULL", buf.values⟩) ∧
    (v.isSlice = true → v.sliceLen = 0 →
      build d buf (Eq c v) =
        .ok ⟨buf.text ++ d.EncodeBool false, buf.values⟩) ∧
    (v.isSlice = true → 0 < v.sliceLen →
      build d buf (Eq c v) =
        .ok ⟨buf.text ++ d.QuoteIdent c ++ " IN " ++ placeholder,
          buf.values ++ [v]⟩) ∧
    (v ≠ .nil → v.isSlice = false →
      build d buf (Eq c v) =
        .ok ⟨buf.text ++ d.QuoteIdent c ++ " = " ++ placeholder,
          buf.values ++ [v]⟩) := by
  refine ⟨?_, ?_, ?_, ?_⟩
  · rintro rfl
    simp [build, Eq, eqCase, Buffer.writeString, String.append_assoc]
  · intro hs hl
    cases v <;> simp_all [GoValue.isSlice, GoValue.sliceLen] <;>
      simp [build, Eq, eqCase, GoValue.isSlice, GoValue.sliceLen,
        Buffer.writeString]
  · intro hs hl
    cases v <;> simp_all [GoValue.isSlice, GoValue.sliceLen] <;>
      (rw [show build d buf (Eq _ _) = eqCase d buf c _ from rfl]) <;>
      simp only [eqCase, GoValue.isSlice, GoValue.sliceLen] <;>
      rw [if_pos trivial, if_neg (by omega), buildCmp_eq] <;>
      simp only [String.append_assoc] <;> rfl
  · intro hnil hs
    cases v <;> simp_all [GoValue.isSlice] <;>
      (rw [show build d buf (Eq _ _) = eqCase d buf c _ from rfl]) <;>
      simp only [eqCase, GoValue.isSlice, Bool.false_eq_true, if_false] <;>
      rw [buildCmp_eq] <;> simp only [String.append_assoc] <;> rfl

/-- C1 witness: the four cases of `eq_case_split` at concrete inputs. -/
theorem eq_case_split_witness :
    build mockDialect emptyBuffer (Eq "a" .nil) =
        .ok ⟨"\"a\" IS NULL", []⟩ ∧
    build mockDialect emptyBuffer (Eq "a" (.slice .intk [])) =
        .ok ⟨"FALSE", []⟩ ∧
    build mockDialect emptyBuffer (Eq "a" (.slice .intk [.int 1])) =
        .ok ⟨"\"a\" IN ?", [.slice .intk [.int 1]]⟩ ∧
    build mockDialect emptyBuffer (Eq "a" (.int 7)) =
        .ok ⟨"\"a\" = ?", [.int 7]⟩ := by
  refine ⟨?_, ?_, ?_, ?_⟩
  · have h := (eq_case_split "a" .nil mockDialect emptyBuffer).1 rfl
    simpa [mockDialect, emptyBuffer] using h
  · have h := (eq_case_split "a" (.slice .intk []) mockDialect
      emptyBuffer).2.1 rfl rfl
    simpa [mockDialect, emptyBuffer] using h
  · have h := (eq_case_split "a" (.slice .intk [.int 1]) mockDialect
      emptyBuffer).2.2.1 rfl (by simp [GoValue.sliceLen])
    simpa [mockDialect, emptyBuffer, placeholder] using h
  · have h := (eq_case_split "a" (.int 7) mockDialect
      emptyBuffer).2.2.2 (by intro h; cases h) rfl
    simpa [mockDialect, emptyBuffer, placeholder] using h

/-! ### C3 -/

/-- C3: `Neq(c, v)` mirrors `Eq`'s case split exactly and always returns ok:
nil renders `<quoted c> IS NOT NULL` binding nothing; an empty slice renders
only the dialect's true literal binding nothing; a non-empty slice renders
`<quoted c> NOT IN <placeholder>` binding the slice as one value; any other
value renders `<quoted c> != <placeholder>` binding `v`. -/
theorem neq_case_split (c : String) (v : GoValue) (d : Dialect)
    (buf : Buffer) :
    (v = .nil →
      build d buf (Neq c v) =
        .ok ⟨buf.text ++ d.QuoteIdent c ++ " IS NOT NULL", buf.values⟩) ∧
    (v.isSlice = true → v.sliceLen = 0 →
      build d buf (Neq c v) =
        .ok ⟨buf.text ++ d.EncodeBool true, buf.values⟩) ∧
    (v.isSlice = true → 0 < v.sliceLen →
      build d buf (Neq c v) =
        .ok ⟨buf.text ++ d.QuoteIdent c ++ " NOT IN " ++ placeholder,
          buf.values ++ [v]⟩) ∧
    (v ≠ .nil → v.isSlice = false →
      build d buf (Neq c v) =
        .ok ⟨buf.text ++ d.QuoteIdent c ++ " != " ++ placeholder,
          buf.values ++ [v]⟩) := by
  refine ⟨?_, ?_, ?_, ?_⟩
  · rintro rfl
    simp [build, Neq, neqCase, Buffer.writeString, String.append_assoc]
  · intro hs hl
    cases v <;> simp_all [GoValue.isSlice, GoValue.sliceLen] <;>
      simp [build, Neq, neqCase, GoValue.isSlice, GoValue.sliceLen,
        Buffer.writeString]
  · intro hs hl
    cases v <;> simp_all [GoValue.isSlice, GoValue.sliceLen] <;>
      (rw [show build d buf (Neq _ _) = neqCase d buf c _ from rfl]) <;>
      simp only [neqCase, GoValue.isSlice, GoValue.sliceLen] <;>
      rw [if_pos trivial, if_neg (by omega), buildCmp_eq] <;>
      simp only [String.append_assoc] <;> rfl
  · intro hnil hs
    cases v <;> simp_all [GoValue.isSlice] <;>
      (rw [show build d buf (Neq _ _) = neqCase d buf c _ from rfl]) <;>
      simp only [neqCase, GoValue.isSlice, Bool.false_eq_true, if_false] <;>
      rw [buildCmp_eq] <;> simp only [String.append_assoc] <;> rfl

/-- C3 witness: the four cases of `neq_case_split` at concrete inputs. -/
theorem neq_case_split_witness :
    build mockDialect emptyBuffer (Neq "a" .nil) =
        .ok ⟨"\"a\" IS NOT NULL", []⟩ ∧
    build mockDialect emptyBuffer (Neq "a" (.slice .intk [])) =
        .ok ⟨"TRUE", []⟩ ∧
    build mockDialect emptyBuffer (Neq "a" (.slice .intk [.int 1])) =
        .ok ⟨"\"a\" NOT IN ?", [.slice .intk [.int 1]]⟩ ∧
    build mockDialect emptyBuffer (Neq "a" (.int 7)) =
        .ok ⟨"\"a\" != ?", [.int 7]⟩ := by
  refine ⟨?_, ?_, ?_, ?_⟩
  · have h := (neq_case_split "a" .nil mockDialect emptyBuffer).1 rfl
    simpa [mockDialect, emptyBuffer] using h
  · have h := (neq_case_split "a" (.slice .intk []) mockDialect
      emptyBuffer).2.1 rfl rfl
    simpa [mockDialect, emptyBuffer] using h
  · have h := (neq_case_split "a" (.slice .intk [.int 1]) mockDialect
      emptyBuffer).2.2.1 rfl (by simp [GoValue.sliceLen])
    simpa [mockDialect, emptyBuffer, placeholder] using h
  · have h := (neq_case_split "a" (.int 7) mockDialect
      emptyBuffer).2.2.2 (by intro h; cases h) rfl
    simpa [mockDialect, emptyBuffer, placeholder] using h

/-! ### C7 -/

/-- C7: each of `Gt`, `Gte`, `Lt`, `Lte` renders unconditionally — for every
value `v`, nil and slices included — as the quoted column, a space, its
operator (`>`, `>=`, `<`, `<=`), a space and one placeholder, appending `v`
as exactly one bound value, and always returns ok. -/
theorem ordering_renders (c : String) (v : GoValue) (d : Dialect)
    (buf : Buffer) :
    build d buf (Gt c v) =
      .ok ⟨buf.text ++ d.QuoteIdent c ++ " > " ++ placeholder,
        buf.values ++ [v]⟩ ∧
    build d buf (Gte c v) =
      .ok ⟨buf.text ++ d.QuoteIdent c ++ " >= " ++ placeholder,
        buf.values ++ [v]⟩ ∧
    build d buf (Lt c v) =
      .ok ⟨buf.text ++ d.QuoteIdent c ++ " < " ++ placeholder,
        buf.values ++ [v]⟩ ∧
    build d buf (Lte c v) =
      .ok ⟨buf.text ++ d.QuoteIdent c ++ " <= " ++ placeholder,
        buf.values ++ [v]⟩ := by
  refine ⟨?_, ?_, ?_, ?_⟩
  · rw [show build d buf (Gt c v) = buildCmp d buf ">" c v from rfl,
      buildCmp_eq]
    simp only [String.append_assoc]; rfl
  · rw [show build d buf (Gte c v) = buildCmp d buf ">=" c v from rfl,
      buildCmp_eq]
    simp only [String.append_assoc]; rfl
  · rw [show build d buf (Lt c v) = buildCmp d buf "<" c v from rfl,
      buildCmp_eq]
    simp only [String.append_assoc]; rfl
  · rw [show build d buf (Lte c v) = buildCmp d buf "<=" c v from rfl,
      buildCmp_eq]
    simp only [String.append_assoc]; rfl

/-! ### C2 -/

/-- C2: `Like` (and `NotLike`, with operator `NOT LIKE`) dispatches on the
value's runtime shape, recursively stripping pointer indirection: a string
renders the quoted column, the operator and one placeholder with the string
bound; a byte slice is bound unmodified; a rune slice is converted to a
single string before binding; and it fails with `ColumnNotSpecified` on nil
and on every other shape (numbers, booleans, structs, slices of any other
element type).  In particular `Like("name", "foo")` succeeds binding
`"foo"` and `Like("name", 42)` fails with `ColumnNotSpecified` (obtained
from the string and number conjuncts at those inputs). -/
theorem like_dispatch (c : String) (d : Dialect) (buf : Buffer) :
    (∀ v, build d buf (Like c v) = buildLikeCmp d buf "LIKE" c v) ∧
    (∀ v, build d buf (NotLike c v) = buildLikeCmp d buf "NOT LIKE" c v) ∧
    (∀ pred s, buildLikeCmp d buf pred c (.str s) =
      .ok ⟨buf.text ++ d.QuoteIdent c ++ " " ++ pred ++ " " ++ placeholder,
        buf.values ++ [.str s]⟩) ∧
    (∀ pred bs, buildLikeCmp d buf pred c (.bytes bs) =
      .ok ⟨buf.text ++ d.QuoteIdent c ++ " " ++ pred ++ " " ++ placeholder,
        buf.values ++ [.bytes bs]⟩) ∧
    (∀ pred rs, buildLikeCmp d buf pred c (.runes rs) =
      .ok ⟨buf.text ++ d.QuoteIdent c ++ " " ++ pred ++ " " ++ placeholder,
        buf.values ++ [.str (String.mk rs)]⟩) ∧
    (∀ pred v, buildLikeCmp d buf pred c (.ptr (some v)) =
      buildLikeCmp d buf pred c v) ∧
    (∀ pred, buildLikeCmp d buf pred c .nil =
      .error .columnNotSpecified buf) ∧
    (∀ pred n, buildLikeCmp d buf pred c (.int n) =
      .error .columnNotSpecified buf) ∧
    (∀ pred b, buildLikeCmp d buf pred c (.boolv b) =
      .error .columnNotSpecified buf) ∧
    (∀ pred s, buildLikeCmp d buf pred c (.structv s) =
      .error .columnNotSpecified buf) ∧
    (∀ pred k es, buildLikeCmp d buf pred c (.slice k es) =
      .error .columnNotSpecified buf) := by
  refine ⟨fun v => rfl, fun v => rfl, ?_, ?_, ?_,
    fun pred v => rfl, fun pred => rfl, fun pred n => rfl,
    fun pred b => rfl, fun pred s => rfl, fun pred k es => rfl⟩
  · intro pred s
    rw [show buildLikeCmp d buf pred c (.str s) =
      buildCmp d buf pred c (.str s) from rfl, buildCmp_eq]
  · intro pred bs
    rw [show buildLikeCmp d buf pred c (.bytes bs) =
      buildCmp d buf pred c (.bytes bs) from rfl, buildCmp_eq]
  · intro pred rs
    rw [show buildLikeCmp d buf pred c (.runes rs) =
      buildCmp d buf pred c (.str (String.mk rs)) from rfl, buildCmp_eq]

/-! ### C10 -/

/-- C10: `Like`/`NotLike` on an empty byte slice or an empty rune slice
succeed — the quoted column, the operator and one placeholder, binding the
empty byte slice unmodified resp. the empty string — whereas a slice of any
other element type fails with `ColumnNotSpecified` regardless of its length;
acceptance depends only on the element type, never on the slice's length
(any byte or rune slice succeeds, any other slice fails). -/
theorem like_empty_sequences (c : String) (d : Dialect) (buf : Buffer) :
    build d buf (Like c (.bytes [])) =
      .ok ⟨buf.text ++ d.QuoteIdent c ++ " LIKE " ++ placeholder,
        buf.values ++ [.bytes []]⟩ ∧
    build d buf (NotLike c (.bytes [])) =
      .ok ⟨buf.text ++ d.QuoteIdent c ++ " NOT LIKE " ++ placeholder,
        buf.values ++ [.bytes []]⟩ ∧
    build d buf (Like c (.runes [])) =
      .ok ⟨buf.text ++ d.QuoteIdent c ++ " LIKE " ++ placeholder,
        buf.values ++ [.str ""]⟩ ∧
    build d buf (NotLike c (.runes [])) =
      .ok ⟨buf.text ++ d.QuoteIdent c ++ " NOT LIKE " ++ placeholder,
        buf.values ++ [.str ""]⟩ ∧
    (∀ k es, build d buf (Like c (.slice k es)) =
      .error .columnNotSpecified buf) ∧
    (∀ k es, build d buf (NotLike c (.slice k es)) =
      .error .columnNotSpecified buf) ∧
    (∀ bs, build d buf (Like c (.bytes bs)) =
      .ok ((((((buf.writeString (d.QuoteIdent c)).writeString
        " ").writeString "LIKE").writeString " ").writeString
        placeholder).writeValue (.bytes bs))) ∧
    (∀ rs, build d buf (Like c (.runes rs)) =
      .ok ((((((buf.writeString (d.QuoteIdent c)).writeString
        " ").writeString "LIKE").writeString " ").writeString
        placeholder).writeValue (.str (String.mk rs)))) := by
  refine ⟨?_, ?_, ?_, ?_, fun k es => rfl, fun k es => rfl,
    fun bs => rfl, fun rs => rfl⟩
  · rw [show build d buf (Like c (.bytes [])) =
      buildCmp d buf "LIKE" c (.bytes []) from rfl, buildCmp_eq]
    simp only [String.append_assoc]; rfl
  · rw [show build d buf (NotLike c (.bytes [])) =
      buildCmp d buf "NOT LIKE" c (.bytes []) from rfl, buildCmp_eq]
    simp only [String.append_assoc]; rfl
  · rw [show build d buf (Like c (.runes [])) =
      buildCmp d buf "LIKE" c (.str "") from rfl, buildCmp_eq]
    simp only [String.append_assoc]; rfl
  · rw [show build d buf (NotLike c (.runes [])) =
      buildCmp d buf "NOT LIKE" c (.str "") from rfl, buildCmp_eq]
    simp only [String.append_assoc]; rfl

/-! ### C6 -/

/-- C6 counterexample: a nil pointer passed to `Like` does not take the
absent-value path — the render is a Go panic (`reflect.Value.Interface` on
the zero `Value` that `Elem()` returns for a nil pointer), not a
`ColumnNotSpecified` error, so the dereference step is not total. -/
theorem like_nil_pointer_crashes :
    build mockDialect emptyBuffer (Like "c" (.ptr none)) =
        .panic emptyBuffer ∧
    BuildResult.panic emptyBuffer ≠
        .error .columnNotSpecified emptyBuffer := by
  exact ⟨rfl, fun h => by cases h⟩

/-- C6 amended: dereferencing is total and recursive only for non-nil
pointers; a pointer to a nil interface value is handled by the absent path on
the next recursion level, returning `ColumnNotSpecified`, but a nil pointer
itself crashes the render (Go panic) at the dereference step. -/
theorem like_pointer_dispatch (c : String) (d : Dialect) (buf : Buffer) :
    (∀ pred v, buildLikeCmp d buf pred c (.ptr (some v)) =
      buildLikeCmp d buf pred c v) ∧
    (∀ pred, buildLikeCmp d buf pred c (.ptr (some .nil)) =
      .error .columnNotSpecified buf) ∧
    (∀ pred, buildLikeCmp d buf pred c (.ptr none) = .panic buf) ∧
    build d buf (Like c (.ptr (some .nil))) =
      .error .columnNotSpecified buf ∧
    build d buf (Like c (.ptr none)) = .panic buf :=
  ⟨fun _ _ => rfl, fun _ => rfl, fun _ => rfl, rfl, rfl⟩

/-! ### C4 -/

theorem condRest_renders (d : Dialect) (pred : String)
    {cs : List Builder} {outs : List (String × List GoValue)}
    (h : List.Forall₂ (fun c o => build d emptyBuffer c = .ok ⟨o.1, o.2⟩)
      cs outs) :
    ∀ buf, buildCondRest d buf pred cs =
      .ok ⟨buf.text ++ condTextRest pred (outs.map Prod.fst),
        buf.values ++ (outs.map Prod.snd).flatten⟩ := by
  induction h with
  | nil =>
      intro buf
      simp [buildCondRest, condTextRest]
  | @cons c o rest outs' hco htail ih =>
      intro buf
      rw [condRest_cons, build_frame, hco]
      simp only [BuildResult.prepend]
      rw [ih]
      simp [Buffer.append, Buffer.writeString, condTextRest,
        String.append_assoc, List.append_assoc]

theorem condFirst_renders (d : Dialect) (pred : String)
    {cs : List Builder} {outs : List (String × List GoValue)}
    (h : List.Forall₂ (fun c o => build d emptyBuffer c = .ok ⟨o.1, o.2⟩)
      cs outs) :
    ∀ buf, buildCondFirst d buf pred cs =
      .ok ⟨buf.text ++ condText pred (outs.map Prod.fst),
        buf.values ++ (outs.map Prod.snd).flatten⟩ := by
  cases h with
  | nil =>
      intro buf
      simp [buildCondFirst, condText]
  | @cons c o rest outs' hco htail =>
      intro buf
      rw [condFirst_cons, build_frame, hco]
      simp only [BuildResult.prepend]
      rw [condRest_renders d pred htail]
      simp [Buffer.append, Buffer.writeString, condText,
        String.append_assoc, List.append_assoc]

/-- C4: for an ordered list of children each of which renders ok from a
fresh buffer with text `o.1` and bound values `o.2`, `And` (resp. `Or`)
renders each child's output wrapped in parentheses with the `" AND "`
(resp. `" OR "`) separator between consecutive children only — none before
the first or after the last (`condText`) — binding the children's values in
order; with zero children it renders empty text and returns ok. -/
theorem and_or_render (d : Dialect) (cs : List Builder)
    (outs : List (String × List GoValue))
    (h : List.Forall₂ (fun c o => build d emptyBuffer c = .ok ⟨o.1, o.2⟩)
      cs outs) (buf : Buffer) :
    build d buf (And cs) =
      .ok ⟨buf.text ++ condText "AND" (outs.map Prod.fst),
        buf.values ++ (outs.map Prod.snd).flatten⟩ ∧
    build d buf (Or cs) =
      .ok ⟨buf.text ++ condText "OR" (outs.map Prod.fst),
        buf.values ++ (outs.map Prod.snd).flatten⟩ :=
  ⟨condFirst_renders d "AND" h buf, condFirst_renders d "OR" h buf⟩

/-- C4 witness: two children and zero children, concretely. -/
theorem and_or_render_witness :
    build mockDialect emptyBuffer (And [Eq "a" (.int 1), Eq "b" (.int 2)]) =
      .ok ⟨"(\"a\" = ?) AND (\"b\" = ?)", [.int 1, .int 2]⟩ ∧
    build mockDialect emptyBuffer (Or []) = .ok ⟨"", []⟩ := by
  constructor
  · have h := (and_or_render mockDialect [Eq "a" (.int 1), Eq "b" (.int 2)]
      [("\"a\" = ?", [.int 1]), ("\"b\" = ?", [.int 2])]
      (.cons rfl (.cons rfl .nil)) emptyBuffer).1
    simpa [emptyBuffer, condText, condTextRest] using h
  · have h := (and_or_render mockDialect [] [] .nil emptyBuffer).2
    simpa [emptyBuffer, condText] using h

/-! ### C9 -/

/-- C9: rendering is a deterministic function of the tree and the dialect
with no hidden state — rendering the same tree twice into fresh empty
buffers produces the same result (text and bound values), and more strongly,
rendering into any buffer equals the fresh-buffer render appended after the
buffer's existing contents (`build_frame`, restated here). -/
theorem render_deterministic (d : Dialect) (t : Builder) :
    build d emptyBuffer t = build d emptyBuffer t ∧
    ∀ buf, build d buf t = (build d emptyBuffer t).prepend buf :=
  ⟨rfl, fun buf => build_frame d t buf⟩

/-! ### C5 -/

theorem condRest_error (d : Dialect) (pred : String)
    {cs : List Builder} {outs : List (String × List GoValue)}
    (h : List.Forall₂ (fun c o => build d emptyBuffer c = .ok ⟨o.1, o.2⟩)
      cs outs)
    (c : Builder) (e : Err) (bc : Buffer) (post : List Builder)
    (hc : build d emptyBuffer c = .error e bc) :
    ∀ buf, buildCondRest d buf pred (cs ++ c :: post) =
      .error e ⟨buf.text ++ condTextRest pred (outs.map Prod.fst) ++
          " " ++ pred ++ " " ++ "(" ++ bc.text,
        buf.values ++ (outs.map Prod.snd).flatten ++ bc.values⟩ := by
  induction h with
  | nil =>
      intro buf
      rw [List.nil_append, condRest_cons, build_frame, hc]
      simp [BuildResult.prepend, Buffer.append, Buffer.writeString,
        condTextRest, String.append_assoc]
  | @cons c0 o rest outs' hco htail ih =>
      intro buf
      rw [List.cons_append, condRest_cons, build_frame, hco]
      simp only [BuildResult.prepend]
      rw [ih]
      simp [Buffer.append, Buffer.writeString, condTextRest,
        String.append_assoc, List.append_assoc]

theorem condFirst_error (d : Dialect) (pred : String)
    {cs : List Builder} {outs : List (String × List GoValue)}
    (h : List.Forall₂ (fun c o => build d emptyBuffer c = .ok ⟨o.1, o.2⟩)
      cs outs)
    (c : Builder) (e : Err) (bc : Buffer) (post : List Builder)
    (hc : build d emptyBuffer c = .error e bc) :
    ∀ buf, buildCondFirst d buf pred (cs ++ c :: post) =
      .error e ⟨buf.text ++ condErrText pred (outs.map Prod.fst) bc.text,
        buf.values ++ (outs.map Prod.snd).flatten ++ bc.values⟩ := by
  cases h with
  | nil =>
      intro buf
      rw [List.nil_append, condFirst_cons, build_frame, hc]
      simp [BuildResult.prepend, Buffer.append, Buffer.writeString,
        condErrText, condText, String.append_assoc]
  | @cons c0 o rest outs' hco htail =>
      intro buf
      rw [List.cons_append, condFirst_cons, build_frame, hco]
      simp only [BuildResult.prepend]
      rw [condRest_error d pred htail c e bc post hc]
      simp [Buffer.append, Buffer.writeString, condErrText, condText,
        condTextRest, String.append_assoc, List.append_assoc]

/-- C5: if, after a prefix of children that render ok (with outputs `outs`),
child `c` renders with error `e` leaving partial buffer contents `bc`, then
`And`/`Or` on the whole list returns exactly that error `e` unchanged; the
later siblings `post` are never rendered (they do not influence the result),
and the buffer is left with the text written up to the failure
(`condErrText` — the successful children's output, a separator if any child
preceded, the opening parenthesis and the failing child's partial text). -/
theorem and_or_short_circuit (d : Dialect) (cs post : List Builder)
    (outs : List (String × List GoValue)) (c : Builder) (e : Err)
    (bc : Buffer)
    (h : List.Forall₂ (fun c o => build d emptyBuffer c = .ok ⟨o.1, o.2⟩)
      cs outs)
    (hc : build d emptyBuffer c = .error e bc) (buf : Buffer) :
    build d buf (And (cs ++ c :: post)) =
      .error e ⟨buf.text ++ condErrText "AND" (outs.map Prod.fst) bc.text,
        buf.values ++ (outs.map Prod.snd).flatten ++ bc.values⟩ ∧
    build d buf (Or (cs ++ c :: post)) =
      .error e ⟨buf.text ++ condErrText "OR" (outs.map Prod.fst) bc.text,
        buf.values ++ (outs.map Prod.snd).flatten ++ bc.values⟩ :=
  ⟨condFirst_error d "AND" h c e bc post hc buf,
   condFirst_error d "OR" h c e bc post hc buf⟩

/-- C5 witness: a failing second child aborts the render of `And`, returns
the child's error unchanged, skips the third sibling, and leaves the
partially-written text. -/
theorem and_or_short_circuit_witness :
    build mockDialect emptyBuffer
        (And [Eq "a" (.int 1), Like "x" (.int 5), Eq "z" (.int 9)]) =
      .error .columnNotSpecified ⟨"(\"a\" = ?) AND (", [.int 1]⟩ := by
  have h := (and_or_short_circuit mockDialect [Eq "a" (.int 1)]
      [Eq "z" (.int 9)] [("\"a\" = ?", [.int 1])] (Like "x" (.int 5))
      .columnNotSpecified emptyBuffer (.cons rfl .nil) rfl emptyBuffer).1
  simpa [emptyBuffer, condErrText, condText, condTextRest] using h

/-! ### C8 -/

theorem countQ_append (a b : String) :
    countQ (a ++ b) = countQ a + countQ b := by
  simp [countQ, String.data_append, List.countP_append]

theorem countQ_space : countQ " " = 0 := by decide

theorem countQ_placeholder : countQ placeholder = 1 := by decide

theorem inv_writeString (buf : Buffer) (s : String) (hs : countQ s = 0)
    (hinv : countQ buf.text = buf.values.length) :
    countQ (buf.writeString s).text = (buf.writeString s).values.length := by
  simp [Buffer.writeString, countQ_append, hs, hinv]

theorem buildCmp_inv (d : Dialect) (buf b' : Buffer) (pred column : String)
    (v : GoValue) (hq : countQ (d.QuoteIdent column) = 0)
    (hp : countQ pred = 0)
    (hok : buildCmp d buf pred column v = .ok b')
    (hinv : countQ buf.text = buf.values.length) :
    countQ b'.text = b'.values.length := by
  rw [buildCmp_eq] at hok
  cases hok
  simp [countQ_append, countQ_space, countQ_placeholder, hq, hp, hinv]

theorem eqCase_inv (d : Dialect) (buf b' : Buffer) (column : String)
    (v : GoValue) (hq : countQ (d.QuoteIdent column) = 0)
    (hb : ∀ bl : Bool, countQ (d.EncodeBool bl) = 0)
    (hok : eqCase d buf column v = .ok b')
    (hinv : countQ buf.text = buf.values.length) :
    countQ b'.text = b'.values.length := by
  cases v with
  | nil =>
      simp only [eqCase] at hok
      cases hok
      simp +decide [Buffer.writeString, countQ_append, hq, hinv]
  | bytes bs =>
      by_cases h : bs.length = 0 <;>
        simp only [eqCase, GoValue.isSlice, GoValue.sliceLen, if_pos trivial,
          h, if_true, if_false] at hok
      · cases hok; simp [Buffer.writeString, countQ_append, hb, hinv]
      · exact buildCmp_inv d buf b' "IN" column _ hq (by decide) hok hinv
  | runes rs =>
      by_cases h : rs.length = 0 <;>
        simp only [eqCase, GoValue.isSlice, GoValue.sliceLen, if_pos trivial,
          h, if_true, if_false] at hok
      · cases hok; simp [Buffer.writeString, countQ_append, hb, hinv]
      · exact buildCmp_inv d buf b' "IN" column _ hq (by decide) hok hinv
  | slice k es =>
      by_cases h : es.length = 0 <;>
        simp only [eqCase, GoValue.isSlice, GoValue.sliceLen, if_pos trivial,
          h, if_true, if_false] at hok
      · cases hok; simp [Buffer.writeString, countQ_append, hb, hinv]
      · exact buildCmp_inv d buf b' "IN" column _ hq (by decide) hok hinv
  | str s => exact buildCmp_inv d buf b' "=" column _ hq (by decide) hok hinv
  | int n => exact buildCmp_inv d buf b' "=" column _ hq (by decide) hok hinv
  | boolv b => exact buildCmp_inv d buf b' "=" column _ hq (by decide) hok hinv
  | structv s =>
      exact buildCmp_inv d buf b' "=" column _ hq (by decide) hok hinv
  | ptr o => exact buildCmp_inv d buf b' "=" column _ hq (by decide) hok hinv

theorem neqCase_inv (d : Dialect) (buf b' : Buffer) (column : String)
    (v : GoValue) (hq : countQ (d.QuoteIdent column) = 0)
    (hb : ∀ bl : Bool, countQ (d.EncodeBool bl) = 0)
    (hok : neqCase d buf column v = .ok b')
    (hinv : countQ buf.text = buf.values.length) :
    countQ b'.text = b'.values.length := by
  cases v with
  | nil =>
      simp only [neqCase] at hok
      cases hok
      simp +decide [Buffer.writeString, countQ_append, hq, hinv]
  | bytes bs =>
      by_cases h : bs.length = 0 <;>
        simp only [neqCase, GoValue.isSlice, GoValue.sliceLen, if_pos trivial,
          h, if_true, if_false] at hok
      · cases hok; simp [Buffer.writeString, countQ_append, hb, hinv]
      · exact buildCmp_inv d buf b' "NOT IN" column _ hq (by decide) hok hinv
  | runes rs =>
      by_cases h : rs.length = 0 <;>
        simp only [neqCase, GoValue.isSlice, GoValue.sliceLen, if_pos trivial,
          h, if_true, if_false] at hok
      · cases hok; simp [Buffer.writeString, countQ_append, hb, hinv]
      · exact buildCmp_inv d buf b' "NOT IN" column _ hq (by decide) hok hinv
  | slice k es =>
      by_cases h : es.length = 0 <;>
        simp only [neqCase, GoValue.isSlice, GoValue.sliceLen, if_pos trivial,
          h, if_true, if_false] at hok
      · cases hok; simp [Buffer.writeString, countQ_append, hb, hinv]
      · exact buildCmp_inv d buf b' "NOT IN" column _ hq (by decide) hok hinv
  | str s => exact buildCmp_inv d buf b' "!=" column _ hq (by decide) hok hinv
  | int n => exact buildCmp_inv d buf b' "!=" column _ hq (by decide) hok hinv
  | boolv b =>
      exact buildCmp_inv d buf b' "!=" column _ hq (by decide) hok hinv
  | structv s =>
      exact buildCmp_inv d buf b' "!=" column _ hq (by decide) hok hinv
  | ptr o => exact buildCmp_inv d buf b' "!=" column _ hq (by decide) hok hinv

theorem buildLikeCmp_inv (d : Dialect) (pred column : String)
    (hq : countQ (d.QuoteIdent column) = 0) (hp : countQ pred = 0) :
    ∀ (v : GoValue) (buf b' : Buffer),
      buildLikeCmp d buf pred column v = .ok b' →
      countQ buf.text = buf.values.length →
      countQ b'.text = b'.values.length
  | .nil, buf, b', hok, hinv => by cases hok
  | .str s, buf, b', hok, hinv =>
      buildCmp_inv d buf b' pred column _ hq hp hok hinv
  | .ptr (some inner), buf, b', hok, hinv =>
      buildLikeCmp_inv d pred column hq hp inner buf b' hok hinv
  | .ptr none, buf, b', hok, hinv => by cases hok
  | .bytes bs, buf, b', hok, hinv =>
      buildCmp_inv d buf b' pred column _ hq hp hok hinv
  | .runes rs, buf, b', hok, hinv =>
      buildCmp_inv d buf b' pred column _ hq hp hok hinv
  | .slice k es, buf, b', hok, hinv => by cases hok
  | .int n, buf, b', hok, hinv => by cases hok
  | .boolv b, buf, b', hok, hinv => by cases hok
  | .structv s, buf, b', hok, hinv => by cases hok

theorem cleanList_mem {d : Dialect} :
    ∀ {cs : List Builder}, cleanList d cs = true →
      ∀ c ∈ cs, cleanTree d c = true
  | [], _, c, hc => by cases hc
  | c0 :: rest, h, c, hc => by
      rw [cleanList, Bool.and_eq_true] at h
      rcases List.mem_cons.mp hc with rfl | hc'
      · exact h.1
      · exact cleanList_mem h.2 c hc'

theorem condRest_inv (d : Dialect) (pred : String) (hp : countQ pred = 0) :
    ∀ (cs : List Builder),
      (∀ c ∈ cs, ∀ buf b', build d buf c = .ok b' →
        countQ buf.text = buf.values.length →
        countQ b'.text = b'.values.length) →
      ∀ buf b', buildCondRest d buf pred cs = .ok b' →
        countQ buf.text = buf.values.length →
        countQ b'.text = b'.values.length
  | [], _, buf, b', hok, hinv => by
      rw [buildCondRest] at hok
      cases hok
      exact hinv
  | c :: rest, hf, buf, b', hok, hinv => by
      rw [condRest_cons] at hok
      cases hbc : build d
          ((((buf.writeString " ").writeString pred).writeString
            " ").writeString "(") c with
      | ok b1 =>
          rw [hbc] at hok
          have hb1 : countQ b1.text = b1.values.length :=
            hf c (List.mem_cons_self c rest) _ b1 hbc
              (by
                refine inv_writeString _ _ (by decide) ?_
                refine inv_writeString _ _ (by decide) ?_
                refine inv_writeString _ _ hp ?_
                exact inv_writeString _ _ (by decide) hinv)
          exact condRest_inv d pred hp rest
            (fun x hx => hf x (List.mem_cons_of_mem _ hx)) _ b' hok
            (inv_writeString _ _ (by decide) hb1)
      | error e b1 => rw [hbc] at hok; cases hok
      | panic b1 => rw [hbc] at hok; cases hok

theorem condFirst_inv (d : Dialect) (pred : String) (hp : countQ pred = 0)
    (cs : List Builder)
    (hf : ∀ c ∈ cs, ∀ buf b', build d buf c = .ok b' →
      countQ buf.text = buf.values.length →
      countQ b'.text = b'.values.length)
    (buf b' : Buffer) (hok : buildCondFirst d buf pred cs = .ok b')
    (hinv : countQ buf.text = buf.values.length) :
    countQ b'.text = b'.values.length := by
  cases cs with
  | nil =>
      rw [buildCondFirst] at hok
      cases hok
      exact hinv
  | cons c rest =>
      rw [condFirst_cons] at hok
      cases hbc : build d (buf.writeString "(") c with
      | ok b1 =>
          rw [hbc] at hok
          have hb1 : countQ b1.text = b1.values.length :=
            hf c (List.mem_cons_self c rest) _ b1 hbc
              (inv_writeString _ _ (by decide) hinv)
          exact condRest_inv d pred hp rest
            (fun x hx => hf x (List.mem_cons_of_mem _ hx)) _ b' hok
            (inv_writeString _ _ (by decide) hb1)
      | error e b1 => rw [hbc] at hok; cases hok
      | panic b1 => rw [hbc] at hok; cases hok

theorem build_inv (d : Dialect)
    (hb : ∀ bl : Bool, countQ (d.EncodeBool bl) = 0) :
    ∀ (t : Builder), cleanTree d t = true →
      ∀ buf b', build d buf t = .ok b' →
        countQ buf.text = buf.values.length →
        countQ b'.text = b'.values.length
  | .and cs, ht, buf, b', hok, hinv =>
      condFirst_inv d "AND" (by decide) cs
        (fun c hc => build_inv d hb c
          (cleanList_mem (by rw [cleanTree] at ht; exact ht) c hc))
        buf b' hok hinv
  | .or cs, ht, buf, b', hok, hinv =>
      condFirst_inv d "OR" (by decide) cs
        (fun c hc => build_inv d hb c
          (cleanList_mem (by rw [cleanTree] at ht; exact ht) c hc))
        buf b' hok hinv
  | .eq c v, ht, buf, b', hok, hinv =>
      eqCase_inv d buf b' c v
        (by rw [cleanTree] at ht; exact eq_of_beq ht) hb hok hinv
  | .neq c v, ht, buf, b', hok, hinv =>
      neqCase_inv d buf b' c v
        (by rw [cleanTree] at ht; exact eq_of_beq ht) hb hok hinv
  | .gt c v, ht, buf, b', hok, hinv =>
      buildCmp_inv d buf b' ">" c v
        (by rw [cleanTree] at ht; exact eq_of_beq ht)
        (by decide) hok hinv
  | .gte c v, ht, buf, b', hok, hinv =>
      buildCmp_inv d buf b' ">=" c v
        (by rw [cleanTree] at ht; exact eq_of_beq ht)
        (by decide) hok hinv
  | .lt c v, ht, buf, b', hok, hinv =>
      buildCmp_inv d buf b' "<" c v
        (by rw [cleanTree] at ht; exact eq_of_beq ht)
        (by decide) hok hinv
  | .lte c v, ht, buf, b', hok, hinv =>
      buildCmp_inv d buf b' "<=" c v
        (by rw [cleanTree] at ht; exact eq_of_beq ht)
        (by decide) hok hinv
  | .like c v, ht, buf, b', hok, hinv =>
      buildLikeCmp_inv d "LIKE" c
        (by rw [cleanTree] at ht; exact eq_of_beq ht)
        (by decide) v buf b' hok hinv
  | .notLike c v, ht, buf, b', hok, hinv =>
      buildLikeCmp_inv d "NOT LIKE" c
        (by rw [cleanTree] at ht; exact eq_of_beq ht)
        (by decide) v buf b' hok hinv
  | .raw t vs e, ht, buf, b', hok, hinv => by
      rw [cleanTree] at ht
      cases ht
termination_by t => sizeOf t
decreasing_by
  all_goals
    simp only [Builder.and.sizeOf_spec, Builder.or.sizeOf_spec]
  all_goals
    have := List.sizeOf_lt_of_mem (by assumption : c ∈ cs)
  all_goals omega

/-- C8: every successful render of a tree of `And`/`Or`/`Eq`/`Neq`/`Gt`/
`Gte`/`Lt`/`Lte`/`Like`/`NotLike` builders preserves the Buffer invariant:
the number of placeholder tokens in the accumulated text equals the length
of the bound-value sequence (their order matches because `buildCmp` — the
only writer of placeholders — appends exactly one bound value immediately
after the one placeholder it emits, as `buildCmp_eq` shows).  The dialect is
assumed to emit no placeholder character from `EncodeBool` or from
`QuoteIdent` on the columns of the tree (`cleanTree`). -/
theorem placeholder_invariant (d : Dialect) (t : Builder) (buf b' : Buffer)
    (hb : ∀ bl : Bool, countQ (d.EncodeBool bl) = 0)
    (ht : cleanTree d t = true)
    (hok : build d buf t = .ok b')
    (hinv : countQ buf.text = buf.values.length) :
    countQ b'.text = b'.values.length :=
  build_inv d hb t ht buf b' hok hinv

/-- C8 witness: a concrete mixed tree rendering two placeholders and two
bound values. -/
theorem placeholder_invariant_witness :
    build mockDialect emptyBuffer
        (And [Eq "a" (.int 1), Like "b" (.str "x")]) =
      .ok ⟨"(\"a\" = ?) AND (\"b\" LIKE ?)", [.int 1, .str "x"]⟩ ∧
    countQ "(\"a\" = ?) AND (\"b\" LIKE ?)" = 2 := by
  refine ⟨rfl, ?_⟩
  have h := placeholder_invariant mockDialect
    (And [Eq "a" (.int 1), Like "b" (.str "x")]) emptyBuffer
    ⟨"(\"a\" = ?) AND (\"b\" LIKE ?)", [.int 1, .str "x"]⟩
    (by decide) (by decide) rfl rfl
  simpa using h

end dbr
